/-
Verification of the knative-serving queue-proxy sidecar and activator
stats reporter.  The stats reporter is embedded from
`pkg/activator/stats_reporter.go`; the admission breaker, request handler
and readiness prober are modelled from the specification (their Go
implementation lives outside the files provided here; only their tests
are present).
-/
import Mathlib

namespace Serving

/-! ## Stats reporter (`pkg/activator/stats_reporter.go`) -/

/-- Go's `strconv.Itoa`: decimal representation of a machine integer,
with a leading minus sign for negative values.  Matches Lean's `toString`
on `Int`. -/
def itoa (n : Int) : String := toString n

/-- Go's integer division truncates toward zero, which is `Int.tdiv`
in Lean. -/
def goDiv (a b : Int) : Int := Int.tdiv a b

/-- From `responseCodeClass`: converts a response code to the string of
its response-code class, e.g. `"5xx"` for 503:
`strconv.Itoa(responseCode/100) + "xx"`. -/
def responseCodeClass (responseCode : Int) : String :=
  itoa (goDiv responseCode 100) ++ "xx"

/-- Tag keys used by the reporter (from `knative.dev/serving/pkg/metrics`
and `knative.dev/pkg/metrics/metricskey`). -/
inductive TagKey
  | namespaceKey
  | serviceKey
  | configKey
  | revisionKey
  | responseCodeKey
  | responseCodeClassKey
  | numTriesKey
  | podKey
  | containerKey
  deriving DecidableEq, Repr

/-- An opencensus tag context: a partial map from tag keys to values. -/
abbrev TagMap : Type := TagKey → Option String

/-- `tag.Upsert k v`: insert or overwrite the value of key `k`. -/
def tagUpsert (k : TagKey) (v : String) (m : TagMap) : TagMap :=
  fun k' => if k' = k then some v else m k'

/-- `tag.New ctx mutators...`: apply the upsert mutators left to right to
the base context. -/
def tagNew (m : TagMap) (ups : List (TagKey × String)) : TagMap :=
  ups.foldl (fun acc kv => tagUpsert kv.1 kv.2 acc) m

/-- From `metricskey.ValueUnknown` of `knative.dev/pkg`. -/
def valueUnknown : String := "unknown"

/-- From `valueOrUnknown`: return `v` if non-empty, otherwise the
library's unknown value. -/
def valueOrUnknown (v : String) : String :=
  if v ≠ "" then v else valueUnknown

/-- The `reporter` struct: it carries the base tag context built by
`NewStatsReporter`. -/
structure Reporter where
  ctx : TagMap

/-- From `ReportRequestConcurrency`: the tag context passed to
`pkgmetrics.Record` for the `request_concurrency` measure. -/
def reportRequestConcurrencyTags (r : Reporter) (ns service config rev : String) :
    TagMap :=
  tagNew r.ctx
    [(.namespaceKey, ns),
     (.serviceKey, valueOrUnknown service),
     (.configKey, config),
     (.revisionKey, rev)]

/-- From `ReportRequestCount`: the tag context passed to
`pkgmetrics.Record` for the `request_count` measure. -/
def reportRequestCountTags (r : Reporter) (ns service config rev : String)
    (responseCode numTries : Int) : TagMap :=
  tagNew r.ctx
    [(.namespaceKey, ns),
     (.serviceKey, valueOrUnknown service),
     (.configKey, config),
     (.revisionKey, rev),
     (.responseCodeKey, itoa responseCode),
     (.responseCodeClassKey, responseCodeClass responseCode),
     (.numTriesKey, itoa numTries)]

/-- From `ReportResponseTime`: the tag context passed to
`pkgmetrics.Record` for the `request_latencies` measure. -/
def reportResponseTimeTags (r : Reporter) (ns service config rev : String)
    (responseCode : Int) : TagMap :=
  tagNew r.ctx
    [(.namespaceKey, ns),
     (.serviceKey, valueOrUnknown service),
     (.configKey, config),
     (.revisionKey, rev),
     (.responseCodeKey, itoa responseCode),
     (.responseCodeClassKey, responseCodeClass responseCode)]

/-! ## Request handler (queue-proxy `main.go`)

The handler implementation is not among the provided files (only its
tests are), so it is modelled from the specification, section 4.3. -/

/-- Modelled from the spec: the designated probe header
(`network.ProbeHeaderName`); its literal value is not fixed by the spec,
only that it is distinct from the other reserved headers. -/
def probeHeaderName : String := "K-Network-Probe"

/-- Modelled from the spec: the first reserved internal routing header
(`activator.RevisionHeaderName`). -/
def revisionHeaderName : String := "Knative-Serving-Revision"

/-- Modelled from the spec: the second reserved internal routing header
(`activator.RevisionHeaderNamespace`). -/
def revisionHeaderNamespace : String := "Knative-Serving-Namespace"

/-- Modelled from the spec: the original-host header
(`network.OriginalHostHeader`) carrying the client-visible host across
the internal hop. -/
def originalHostHeader : String := "K-Original-Host"

/-- Modelled from the spec: this sidecar's identity string
(`queue.Name`), the expected probe header value and the 200 probe
response body. -/
def queueName : String := "queue-proxy"

/-- Modelled from the spec: the templated 400 body naming the unexpected
probe header value (`badProbeTemplate`). -/
def badProbeBody (v : String) : String :=
  "unexpected probe header value: " ++ v

/-- An HTTP request, reduced to what the handler inspects: its host and
its headers. -/
structure Request where
  host : String
  headers : List (String × String)
  deriving DecidableEq, Repr

/-- The value of the first header with the given name in a header list,
or `""` when absent. -/
def lookupHeader : List (String × String) → String → String
  | [], _ => ""
  | p :: rest, k => if p.1 = k then p.2 else lookupHeader rest k

/-- Removal of every header with the given name from a header list. -/
def removeHeader : List (String × String) → String → List (String × String)
  | [], _ => []
  | p :: rest, k =>
    if p.1 = k then removeHeader rest k else p :: removeHeader rest k

/-- Go's `Header.Get`: the value of the first header with the given
name, or `""` when absent. -/
def getHeader (r : Request) (k : String) : String :=
  lookupHeader r.headers k

/-- Go's `Header.Del`: remove every header with the given name. -/
def delHeader (r : Request) (k : String) : Request :=
  { r with headers := removeHeader r.headers k }

/-- The concurrency-event types carried on the event channel
(`queue.ReqEvent`). -/
inductive EventType
  | reqIn
  | reqOut
  | proxiedIn
  | proxiedOut
  deriving DecidableEq, Repr

/-- One observable step of the handler: an event emission on the
channel, a call into `Breaker.Maybe`, or a call into the reverse proxy. -/
inductive Action
  | emit (e : EventType)
  | callMaybe
  | callProxy
  deriving DecidableEq, Repr

/-- The outcome of `Breaker.Maybe` for this request, resolved by the
breaker state: admitted, waiting-room overflow, or context cancellation
while queued. -/
inductive AdmissionOutcome
  | admitted
  | overflow
  | canceled
  deriving DecidableEq, Repr

/-- What the handler produced for one request: the status and body
written (status 0 when the response was abandoned), the request as
forwarded to the backend (`none` when nothing was forwarded), and the
ordered trace of observable actions. -/
structure HandlerResult where
  status : Nat
  body : String
  forwarded : Option Request
  trace : List Action
  deriving DecidableEq, Repr

/-- The events sent on the event channel, in order, read off the trace. -/
def HandlerResult.events (r : HandlerResult) : List EventType :=
  r.trace.filterMap (fun a => match a with | .emit e => some e | _ => none)

/-- Modelled from the spec: the queue-proxy request handler
(`handler(reqChan, breaker, proxy, prober)`), section 4.3.  The three
collaborators are `Option`s so that the nil-collaborator configurations
of the tests are expressible; `prober : Option Bool` is the readiness
function together with its current value.  `admission` resolves the
breaker's concurrent admission decision and `backendStatus`/`backendBody`
the backend's response, both externals of the handler itself. -/
def handler (_reqChan : Option Unit) (breaker : Option Unit) (_proxy : Option Unit)
    (prober : Option Bool) (admission : AdmissionOutcome)
    (backendStatus : Nat) (backendBody : String) (req : Request) : HandlerResult :=
  let ph := getHeader req probeHeaderName
  if ph ≠ "" then
    -- Probe path: answered locally, never touches channel, breaker or proxy.
    if ph ≠ queueName then
      ⟨400, badProbeBody ph, none, []⟩
    else
      match prober with
      | none => ⟨500, "no probe", none, []⟩
      | some true => ⟨200, queueName, none, []⟩
      | some false => ⟨503, "container not ready", none, []⟩
  else if getHeader req revisionHeaderName ≠ "" ∨
          getHeader req revisionHeaderNamespace ≠ "" then
    -- Reserved internal routing headers present: spoofing, reject.
    ⟨400, "", none, []⟩
  else
    -- Restore the original externally-visible host.
    let oh := getHeader req originalHostHeader
    let fwd := if oh ≠ "" then delHeader { req with host := oh } originalHostHeader
               else req
    match breaker with
    | none =>
        -- Degraded/bypass configuration: forward directly.
        ⟨backendStatus, backendBody, some fwd,
          [.emit .reqIn, .callProxy, .emit .reqOut]⟩
    | some _ =>
        match admission with
        | .admitted =>
            ⟨backendStatus, backendBody, some fwd,
              [.emit .reqIn, .callMaybe, .emit .proxiedIn, .callProxy,
               .emit .proxiedOut, .emit .reqOut]⟩
        | .overflow =>
            ⟨503, "overload", none, [.emit .reqIn, .callMaybe, .emit .reqOut]⟩
        | .canceled =>
            ⟨0, "", none, [.emit .reqIn, .callMaybe, .emit .reqOut]⟩

/-! ## Breaker (spec section 4.1)

The breaker implementation is not among the provided files; it is
modelled from the specification as a transition system over its two
counters.  A request first reserves a waiting-room slot (rejected
synchronously when the static bound `queueDepthFactor × maxConcurrency`
is reached), then either acquires an execution slot when one is free,
or leaves the waiting room on context cancellation; `work` runs while
the execution slot is held and the slot is released afterwards. -/

/-- Modelled from the spec: the breaker's configuration
(`{queueDepthFactor, maxConcurrency, initialCapacity}`), with a fixed
live capacity (no `UpdateConcurrency` call in flight). -/
structure BreakerParams where
  queueDepthFactor : Nat
  maxConcurrency : Nat
  capacity : Nat
  deriving DecidableEq, Repr

/-- The breaker's instantaneous state: how many requests are parked in
the waiting room and how many invocations of `work` are executing. -/
structure BreakerState where
  pending : Nat
  active : Nat
  deriving DecidableEq, Repr

/-- Modelled from the spec: one interleaved step of any of the
concurrent `Maybe` callers against a breaker with parameters `p`.
`enqueue` reserves a waiting-room slot (only below the static bound),
`acquire` moves a waiter onto a free execution slot (only below
capacity), `cancel` removes a waiter whose context expired, and
`release` ends an execution of `work`. -/
inductive BreakerStep (p : BreakerParams) : BreakerState → BreakerState → Prop
  | enqueue {s : BreakerState}
      (h : s.pending < p.queueDepthFactor * p.maxConcurrency) :
      BreakerStep p s ⟨s.pending + 1, s.active⟩
  | acquire {s : BreakerState}
      (hp : 0 < s.pending) (hc : s.active < p.capacity) :
      BreakerStep p s ⟨s.pending - 1, s.active + 1⟩
  | cancel {s : BreakerState} (hp : 0 < s.pending) :
      BreakerStep p s ⟨s.pending - 1, s.active⟩
  | release {s : BreakerState} (ha : 0 < s.active) :
      BreakerStep p s ⟨s.pending, s.active - 1⟩

/-- States reachable from the breaker's initial (empty) state by any
interleaving of steps. -/
inductive BreakerReachable (p : BreakerParams) : BreakerState → Prop
  | init : BreakerReachable p ⟨0, 0⟩
  | step {s s' : BreakerState} (hr : BreakerReachable p s)
      (hs : BreakerStep p s s') : BreakerReachable p s'

/-! ## Readiness prober (spec section 4.2)

`probeQueueHealthPath(port, timeoutSeconds)` is not among the provided
files; it is modelled from the specification.  The backend is a function
from the attempt index to that attempt's behavior — how long the attempt
takes and what it yields — and time is counted in abstract units (the
fixed polling interval costs one unit). -/

/-- What a single probe attempt against the backend yields. -/
inductive ProbeOutcome
  | connFailed
  | notReady
  | success
  deriving DecidableEq, Repr

/-- One attempt's behavior: how many time units the attempt takes and
what it yields. -/
structure Attempt where
  duration : Nat
  outcome : ProbeOutcome
  deriving DecidableEq, Repr

/-- The prober's three distinguishable error classes. -/
inductive ProbeError
  | connectionFailed
  | notReady
  | timedOut
  deriving DecidableEq, Repr

/-- The message of each prober error (`err.Error()` in Go); the tests pin
the not-ready message exactly. -/
def probeErrorMessage : ProbeError → String
  | .connectionFailed => "connection failed"
  | .notReady => "probe returned not ready"
  | .timedOut => "probe timed out"

/-- Modelled from the spec: the prober's retry loop.  `deadline` is the
overall time budget (`0` meaning no deadline), `i` the next attempt
index, `elapsed` the time consumed so far and `lastErr` the error of the
most recent attempt.  Once a positive deadline has elapsed the loop
returns `lastErr`; when the in-flight attempt would exceed the remaining
budget it returns the distinct timed-out error instead of waiting; a
success-status attempt returns `ok` immediately; otherwise the loop
records the attempt's error, sleeps one polling interval and retries.
`fuel` bounds the recursion; `none` means the loop had not returned
within `fuel` iterations (for a positive deadline, `deadline + 1` fuel
always suffices, see `probeLoop_total`). -/
def probeLoop (backend : Nat → Attempt) (deadline : Nat) :
    Nat → Nat → Nat → ProbeError → Option (Except ProbeError Unit)
  | 0, _, _, _ => none
  | fuel + 1, i, elapsed, lastErr =>
    if 0 < deadline ∧ deadline ≤ elapsed then
      some (.error lastErr)
    else
      let a := backend i
      if 0 < deadline ∧ deadline < elapsed + a.duration then
        some (.error .timedOut)
      else
        match a.outcome with
        | .success => some (.ok ())
        | .connFailed =>
            probeLoop backend deadline fuel (i + 1) (elapsed + a.duration + 1)
              .connectionFailed
        | .notReady =>
            probeLoop backend deadline fuel (i + 1) (elapsed + a.duration + 1)
              .notReady

/-- Modelled from the spec: `probeQueueHealthPath(port, timeoutSeconds)`
for a positive `timeoutSeconds`, with the backend listening on the port
abstracted as the attempt function. -/
def probeHealth (backend : Nat → Attempt) (timeoutSeconds : Nat) :
    Option (Except ProbeError Unit) :=
  probeLoop backend timeoutSeconds (timeoutSeconds + 1) 0 0 .connectionFailed

/-- The backend of `TestProbeQueueConnectionFailure`: nothing listens on
the port, every attempt fails to connect. -/
def deadBackend : Nat → Attempt := fun _ => ⟨0, .connFailed⟩

/-- The backend of `TestProbeQueueNotReady`: every attempt answers a
non-success status. -/
def notReadyBackend : Nat → Attempt := fun _ => ⟨0, .notReady⟩

/-- The backend of `TestProbeQueueReady`: the first attempt answers a
success status at once. -/
def readyBackend : Nat → Attempt := fun _ => ⟨0, .success⟩

/-- The backend of `TestProbeQueueTimeout`: the attempt would take two
time units against a one-unit deadline. -/
def slowBackend : Nat → Attempt := fun _ => ⟨2, .success⟩

/-- The backend of `TestProbeQueueDelayedReady`: the first `n` attempts
answer a non-success status, afterwards success. -/
def delayedBackend (n : Nat) : Nat → Attempt :=
  fun i => if i < n then ⟨0, .notReady⟩ else ⟨0, .success⟩

/-! ## Helper lemmas on headers -/

/-- Looking up a key other than the removed one is unaffected by the
removal. -/
theorem lookup_remove_of_ne (l : List (String × String)) (k k' : String)
    (h : k' ≠ k) :
    lookupHeader (removeHeader l k) k' = lookupHeader l k' := by
  induction l with
  | nil => rfl
  | cons hd tl ih =>
    by_cases h1 : hd.1 = k
    · have h2 : ¬ hd.1 = k' := fun e => h (h1 ▸ e).symm
      simp only [removeHeader, lookupHeader, if_pos h1, if_neg h2, ih]
    · simp only [removeHeader, lookupHeader, if_neg h1]
      by_cases h2 : hd.1 = k'
      · simp only [lookupHeader, if_pos h2]
      · simp only [lookupHeader, if_neg h2, ih]

/-- Looking up the removed key yields nothing. -/
theorem lookup_remove_self (l : List (String × String)) (k : String) :
    lookupHeader (removeHeader l k) k = "" := by
  induction l with
  | nil => rfl
  | cons hd tl ih =>
    by_cases h1 : hd.1 = k
    · simp only [removeHeader, if_pos h1, ih]
    · simp only [removeHeader, if_neg h1, lookupHeader, ih]

/-- `getHeader` after `delHeader` of a different name is unchanged. -/
theorem getHeader_delHeader_of_ne (r : Request) (k k' : String) (h : k' ≠ k) :
    getHeader (delHeader r k) k' = getHeader r k' :=
  lookup_remove_of_ne r.headers k k' h

/-- `getHeader` after `delHeader` of the same name is empty. -/
theorem getHeader_delHeader_self (r : Request) (k : String) :
    getHeader (delHeader r k) k = "" :=
  lookup_remove_self r.headers k

/-! ## Helper lemmas on the prober loop -/

/-- With a positive deadline the loop returns within `deadline + 1 -
elapsed` iterations: fuel never runs out, since every retry consumes at
least one time unit (the polling interval). -/
theorem probeLoop_isSome (backend : Nat → Attempt) (deadline : Nat)
    (hd : 0 < deadline) :
    ∀ fuel i elapsed lastErr, deadline + 1 ≤ fuel + elapsed → 1 ≤ fuel →
      (probeLoop backend deadline fuel i elapsed lastErr).isSome := by
  intro fuel
  induction fuel with
  | zero =>
    intro i elapsed lastErr h1 h2
    exact (Nat.not_succ_le_zero 0 h2).elim
  | succ n ih =>
    intro i elapsed lastErr h1 h2
    simp only [probeLoop]
    split_ifs with hA hB
    · rfl
    · rfl
    · cases ho : (backend i).outcome with
      | success => simp [ho]
      | connFailed =>
          simp only [ho]
          exact ih (i + 1) (elapsed + (backend i).duration + 1)
            .connectionFailed (by omega) (by omega)
      | notReady =>
          simp only [ho]
          exact ih (i + 1) (elapsed + (backend i).duration + 1)
            .notReady (by omega) (by omega)

/-- With deadline zero the loop ignores the time budget entirely and
stops exactly at the first success-status attempt. -/
theorem probeLoop_zero_deadline (backend : Nat → Attempt) :
    ∀ (k i elapsed : Nat) (lastErr : ProbeError),
      (∀ m, m < k → (backend (i + m)).outcome ≠ ProbeOutcome.success) →
      (backend (i + k)).outcome = ProbeOutcome.success →
      probeLoop backend 0 (k + 1) i elapsed lastErr =
        some (Except.ok ()) := by
  intro k
  induction k with
  | zero =>
    intro i elapsed lastErr _ hsucc
    rw [Nat.add_zero] at hsucc
    simp only [probeLoop]
    rw [if_neg (by omega), if_neg (by omega)]
    simp only [hsucc]
  | succ k ih =>
    intro i elapsed lastErr hfail hsucc
    simp only [probeLoop]
    rw [if_neg (by omega), if_neg (by omega)]
    have h0 : (backend i).outcome ≠ ProbeOutcome.success := by
      have h := hfail 0 (Nat.succ_pos k)
      rwa [Nat.add_zero] at h
    cases ho : (backend i).outcome with
    | success => exact absurd ho h0
    | connFailed =>
        simp only [ho]
        refine ih (i + 1) (elapsed + (backend i).duration + 1)
          ProbeError.connectionFailed (fun m hm => ?_) ?_
        · have h := hfail (m + 1) (by omega)
          have e : i + (m + 1) = i + 1 + m := by omega
          rwa [e] at h
        · have e : i + (k + 1) = i + 1 + k := by omega
          rwa [e] at hsucc
    | notReady =>
        simp only [ho]
        refine ih (i + 1) (elapsed + (backend i).duration + 1)
          ProbeError.notReady (fun m hm => ?_) ?_
        · have h := hfail (m + 1) (by omega)
          have e : i + (m + 1) = i + 1 + m := by omega
          rwa [e] at h
        · have e : i + (k + 1) = i + 1 + k := by omega
          rwa [e] at hsucc

/-! ## Claim theorems -/

/-- C9: `responseCodeClass(responseCode)` is the decimal string of
`responseCode` divided by 100 (integer division, truncating toward zero
as in Go) concatenated with `"xx"` — so 503 maps to `"5xx"` and 200 to
`"2xx"` — and this value is the response-code-class tag recorded by both
`ReportRequestCount` and `ReportResponseTime`. -/
theorem responseCodeClass_tagging :
    (∀ code : Int, responseCodeClass code = itoa (goDiv code 100) ++ "xx") ∧
    responseCodeClass 503 = "5xx" ∧
    responseCodeClass 200 = "2xx" ∧
    (∀ (r : Reporter) (ns s c rev : String) (code tries : Int),
      reportRequestCountTags r ns s c rev code tries
          TagKey.responseCodeClassKey = some (responseCodeClass code)) ∧
    (∀ (r : Reporter) (ns s c rev : String) (code : Int),
      reportResponseTimeTags r ns s c rev code
          TagKey.responseCodeClassKey = some (responseCodeClass code)) :=
  ⟨fun _ => rfl, by decide, by decide,
   fun _ _ _ _ _ _ _ => rfl, fun _ _ _ _ _ _ => rfl⟩

/-- C10: every reporter call tags the service with
`valueOrUnknown service` — the library's `"unknown"` value when the
service name is empty, the name itself otherwise — while namespace,
configuration and revision are tagged with the arguments unchanged. -/
theorem service_tag_unknown :
    valueOrUnknown "" = valueUnknown ∧ valueUnknown = "unknown" ∧
    (∀ v : String, v ≠ "" → valueOrUnknown v = v) ∧
    (∀ (r : Reporter) (ns s c rev : String),
      reportRequestConcurrencyTags r ns s c rev TagKey.serviceKey =
          some (valueOrUnknown s) ∧
      reportRequestConcurrencyTags r ns s c rev TagKey.namespaceKey = some ns ∧
      reportRequestConcurrencyTags r ns s c rev TagKey.configKey = some c ∧
      reportRequestConcurrencyTags r ns s c rev TagKey.revisionKey = some rev) ∧
    (∀ (r : Reporter) (ns s c rev : String) (code tries : Int),
      reportRequestCountTags r ns s c rev code tries TagKey.serviceKey =
          some (valueOrUnknown s) ∧
      reportRequestCountTags r ns s c rev code tries TagKey.namespaceKey =
          some ns ∧
      reportRequestCountTags r ns s c rev code tries TagKey.configKey =
          some c ∧
      reportRequestCountTags r ns s c rev code tries TagKey.revisionKey =
          some rev) ∧
    (∀ (r : Reporter) (ns s c rev : String) (code : Int),
      reportResponseTimeTags r ns s c rev code TagKey.serviceKey =
          some (valueOrUnknown s) ∧
      reportResponseTimeTags r ns s c rev code TagKey.namespaceKey = some ns ∧
      reportResponseTimeTags r ns s c rev code TagKey.configKey = some c ∧
      reportResponseTimeTags r ns s c rev code TagKey.revisionKey = some rev) := by
  refine ⟨by decide, rfl, fun v hv => ?_, ?_, ?_, ?_⟩
  · unfold valueOrUnknown
    rw [if_pos hv]
  · exact fun _ _ _ _ _ => ⟨rfl, rfl, rfl, rfl⟩
  · exact fun _ _ _ _ _ _ _ => ⟨rfl, rfl, rfl, rfl⟩
  · exact fun _ _ _ _ _ _ => ⟨rfl, rfl, rfl, rfl⟩

/-- Witness for C10 at concrete inputs: a non-empty service name passes
through unchanged. -/
theorem service_tag_unknown_witness : valueOrUnknown "svc" = "svc" :=
  service_tag_unknown.2.2.1 "svc" (by decide)

/-- C2: for every request carrying the probe header: an unexpected value
yields 400 with a body containing that value; the expected value with no
readiness function yields 500 with body `"no probe"`; with a readiness
function returning true, 200 with this sidecar's identity string as
body; with a readiness function returning false, 503 with body
`"container not ready"`. -/
theorem probe_handler_responses (ch b p : Option Unit) (prober : Option Bool)
    (adm : AdmissionOutcome) (st : Nat) (bd : String) (req : Request)
    (v : String) (hv : getHeader req probeHeaderName = v) (hne : v ≠ "") :
    (v ≠ queueName →
      handler ch b p prober adm st bd req =
        ⟨400, badProbeBody v, none, []⟩ ∧
      ∃ pre post, badProbeBody v = pre ++ v ++ post) ∧
    (v = queueName → prober = none →
      handler ch b p prober adm st bd req = ⟨500, "no probe", none, []⟩) ∧
    (v = queueName → prober = some true →
      handler ch b p prober adm st bd req = ⟨200, queueName, none, []⟩) ∧
    (v = queueName → prober = some false →
      handler ch b p prober adm st bd req =
        ⟨503, "container not ready", none, []⟩) := by
  subst hv
  have hqn : queueName ≠ "" := by decide
  refine ⟨fun hq => ⟨?_, "unexpected probe header value: ", "", ?_⟩,
          fun hq hp => ?_, fun hq hp => ?_, fun hq hp => ?_⟩
  · simp [handler, hne, hq]
  · rw [String.append_empty]; rfl
  · simp [handler, hne, hq, hp, hqn]
  · simp [handler, hne, hq, hp, hqn]
  · simp [handler, hne, hq, hp, hqn]

/-- Witness for C2 at concrete inputs: the unexpected value
`"test-probe"` yields 400 with the templated body. -/
theorem probe_handler_responses_witness :
    handler none none none (some true) AdmissionOutcome.admitted 0 ""
        ⟨"h", [(probeHeaderName, "test-probe")]⟩ =
      ⟨400, badProbeBody "test-probe", none, []⟩ :=
  ((probe_handler_responses none none none (some true)
      AdmissionOutcome.admitted 0 "" ⟨"h", [(probeHeaderName, "test-probe")]⟩
      "test-probe" (by decide) (by decide)).1 (by decide)).1

/-- C5: for every ordinary (non-probe) request and every admission
outcome — admitted, overflow or canceled — the handler emits the
`RequestIn` event before calling `Breaker.Maybe` (which it does call);
and for a successfully admitted request the events on the channel are in
the order `RequestIn`, `ProxiedIn`, `ProxiedOut`, `RequestOut`, with
exactly one `ProxiedIn` event appearing. -/
theorem handler_event_order (ch p : Option Unit) (prober : Option Bool)
    (adm : AdmissionOutcome) (st : Nat) (bd : String) (req : Request)
    (hprobe : getHeader req probeHeaderName = "")
    (h1 : getHeader req revisionHeaderName = "")
    (h2 : getHeader req revisionHeaderNamespace = "") :
    (handler ch (some ()) p prober adm st bd req).trace.indexOf
        (.emit .reqIn) <
      (handler ch (some ()) p prober adm st bd req).trace.indexOf
        .callMaybe ∧
    .callMaybe ∈ (handler ch (some ()) p prober adm st bd req).trace ∧
    (adm = .admitted →
      (handler ch (some ()) p prober adm st bd req).events =
        [.reqIn, .proxiedIn, .proxiedOut, .reqOut] ∧
      (handler ch (some ()) p prober adm st bd req).events.count
          .proxiedIn = 1) := by
  rcases adm with _ | _ | _
  · have hres : (handler ch (some ()) p prober .admitted st bd req).trace =
        [.emit .reqIn, .callMaybe, .emit .proxiedIn, .callProxy,
         .emit .proxiedOut, .emit .reqOut] := by
      simp [handler, hprobe, h1, h2]
    refine ⟨?_, ?_, fun _ => ⟨?_, ?_⟩⟩ <;>
      simp only [HandlerResult.events, hres] <;> decide
  · have hres : (handler ch (some ()) p prober .overflow st bd req).trace =
        [.emit .reqIn, .callMaybe, .emit .reqOut] := by
      simp [handler, hprobe, h1, h2]
    refine ⟨?_, ?_, fun ha => absurd ha (by decide)⟩ <;>
      simp only [hres] <;> decide
  · have hres : (handler ch (some ()) p prober .canceled st bd req).trace =
        [.emit .reqIn, .callMaybe, .emit .reqOut] := by
      simp [handler, hprobe, h1, h2]
    refine ⟨?_, ?_, fun ha => absurd ha (by decide)⟩ <;>
      simp only [hres] <;> decide

/-- Witness for C5 at concrete inputs: a header-free request whose
`Maybe` call overflows still has `RequestIn` emitted before the
`Breaker.Maybe` call, and the same request when admitted yields the four
events in order. -/
theorem handler_event_order_witness :
    ((handler none (some ()) none none AdmissionOutcome.overflow 200 "ok"
        ⟨"h", []⟩).trace.indexOf (Action.emit EventType.reqIn) <
      (handler none (some ()) none none AdmissionOutcome.overflow 200 "ok"
        ⟨"h", []⟩).trace.indexOf Action.callMaybe) ∧
    (handler none (some ()) none none AdmissionOutcome.admitted 200 "ok"
        ⟨"h", []⟩).events = [.reqIn, .proxiedIn, .proxiedOut, .reqOut] :=
  ⟨(handler_event_order none none none AdmissionOutcome.overflow 200 "ok"
      ⟨"h", []⟩ (by decide) (by decide) (by decide)).1,
   ((handler_event_order none none none AdmissionOutcome.admitted 200 "ok"
      ⟨"h", []⟩ (by decide) (by decide) (by decide)).2.2 rfl).1⟩

/-- C3: with a positive deadline the prober returns exactly once, with
`ok` on a success-status response, and otherwise with exactly one of the
three distinguishable errors: connection failure when nothing listens on
the port, the error whose message is exactly `"probe returned not
ready"` when the backend keeps answering a non-success status until the
deadline elapses, and a distinct timed-out error when the in-flight
attempt would exceed the remaining deadline (a backend sleeping two
units against a one-unit deadline). -/
theorem probe_health_outcomes :
    (∀ (backend : Nat → Attempt) (t : Nat), 0 < t →
      (probeHealth backend t).isSome) ∧
    probeHealth readyBackend 1 = some (Except.ok ()) ∧
    probeHealth deadBackend 1 =
      some (Except.error ProbeError.connectionFailed) ∧
    probeHealth notReadyBackend 1 =
      some (Except.error ProbeError.notReady) ∧
    probeErrorMessage ProbeError.notReady = "probe returned not ready" ∧
    probeHealth slowBackend 1 = some (Except.error ProbeError.timedOut) ∧
    probeErrorMessage ProbeError.timedOut ≠
      probeErrorMessage ProbeError.notReady ∧
    probeErrorMessage ProbeError.timedOut ≠
      probeErrorMessage ProbeError.connectionFailed := by
  refine ⟨fun backend t ht =>
    probeLoop_isSome backend t ht (t + 1) 0 0 ProbeError.connectionFailed
      (by omega) (by omega), ?_, ?_, ?_, ?_, ?_, ?_, ?_⟩ <;>
    first
      | rfl
      | decide

/-- Witness for C3 at concrete inputs: the immediately-ready backend
probed with a one-unit deadline returns. -/
theorem probe_health_outcomes_witness : (probeHealth readyBackend 1).isSome :=
  probe_health_outcomes.1 readyBackend 1 (by decide)

/-- C4: with `timeoutSeconds = 0` the prober retries with no overall
deadline until a success status is observed — for every backend
answering non-success on the first `n` attempts and success on attempt
`n`, the loop terminates (here: within fuel `n + 1`) and returns `ok`. -/
theorem probe_health_unbounded (backend : Nat → Attempt) (n : Nat)
    (hfail : ∀ m, m < n → (backend m).outcome ≠ ProbeOutcome.success)
    (hsucc : (backend n).outcome = ProbeOutcome.success) :
    probeLoop backend 0 (n + 1) 0 0 ProbeError.connectionFailed =
      some (Except.ok ()) :=
  probeLoop_zero_deadline backend n 0 0 ProbeError.connectionFailed
    (fun m hm => by
      have h := hfail m hm
      rwa [Nat.zero_add])
    (by rw [Nat.zero_add]; exact hsucc)

/-- Witness for C4 at concrete inputs: the backend of
`TestProbeQueueDelayedReady`, failing nine times then succeeding,
probed with no deadline, returns `ok`. -/
theorem probe_health_unbounded_witness :
    probeLoop (delayedBackend 9) 0 10 0 0 ProbeError.connectionFailed =
      some (Except.ok ()) :=
  probe_health_unbounded (delayedBackend 9) 9 (by decide) (by decide)

/-- C6: every ordinary inbound request that already carries one of the
two reserved internal routing headers is answered 400 with nothing
forwarded and no Breaker or proxy call, and no request the backend ever
receives carries either reserved header. -/
theorem spoofed_headers_rejected :
    (∀ (ch b p : Option Unit) (prober : Option Bool) (adm : AdmissionOutcome)
       (st : Nat) (bd : String) (req : Request),
       getHeader req probeHeaderName = "" →
       (getHeader req revisionHeaderName ≠ "" ∨
        getHeader req revisionHeaderNamespace ≠ "") →
       handler ch b p prober adm st bd req = ⟨400, "", none, []⟩) ∧
    (∀ (ch b p : Option Unit) (prober : Option Bool) (adm : AdmissionOutcome)
       (st : Nat) (bd : String) (req fwd : Request),
       (handler ch b p prober adm st bd req).forwarded = some fwd →
       getHeader fwd revisionHeaderName = "" ∧
       getHeader fwd revisionHeaderNamespace = "") := by
  constructor
  · intro ch b p prober adm st bd req hprobe hspoof
    simp [handler, hprobe, hspoof]
  · intro ch b p prober adm st bd req fwd hf
    by_cases hprobe : getHeader req probeHeaderName = ""
    · by_cases e1 : getHeader req revisionHeaderName = ""
      · by_cases e2 : getHeader req revisionHeaderNamespace = ""
        · -- ordinary path: the forwarded request is derived from `req`,
          -- whose reserved headers are empty.
          have hfwd : fwd =
              (if getHeader req originalHostHeader = "" then req
               else delHeader { req with
                 host := getHeader req originalHostHeader } originalHostHeader) := by
            rcases b with _ | _
            · simpa [handler, hprobe, e1, e2] using hf.symm
            · rcases adm with _ | _ | _ <;>
                simpa [handler, hprobe, e1, e2] using hf.symm
          by_cases hoh : getHeader req originalHostHeader = ""
          · rw [hfwd, if_pos hoh]
            exact ⟨e1, e2⟩
          · rw [hfwd, if_neg hoh]
            rw [getHeader_delHeader_of_ne _ _ _ (by decide),
                getHeader_delHeader_of_ne _ _ _ (by decide)]
            exact ⟨e1, e2⟩
        · simp [handler, hprobe, e1, e2] at hf
      · simp [handler, hprobe, e1] at hf
    · -- probe path: nothing is forwarded.
      by_cases hq : getHeader req probeHeaderName = queueName
      · rcases prober with _ | bv
        · simp [handler, hprobe, hq, (by decide : queueName ≠ "")] at hf
        · rcases bv <;>
            simp [handler, hprobe, hq, (by decide : queueName ≠ "")] at hf
      · simp [handler, hprobe, hq] at hf

/-- Witness for C6 at concrete inputs: a request carrying the first
reserved routing header is answered 400 with an empty trace. -/
theorem spoofed_headers_rejected_witness :
    handler (some ()) (some ()) (some ()) (some true)
        AdmissionOutcome.admitted 200 "ok"
        ⟨"h", [(revisionHeaderName, "rev")]⟩ = ⟨400, "", none, []⟩ :=
  spoofed_headers_rejected.1 (some ()) (some ()) (some ()) (some true)
    AdmissionOutcome.admitted 200 "ok" ⟨"h", [(revisionHeaderName, "rev")]⟩
    (by decide) (Or.inl (by decide))

/-- C7: every forwarded request that carried the original-host header
reaches the backend with its host set to that header's value and without
the original-host header itself. -/
theorem original_host_restored (ch b p : Option Unit) (prober : Option Bool)
    (adm : AdmissionOutcome) (st : Nat) (bd : String) (req fwd : Request)
    (hf : (handler ch b p prober adm st bd req).forwarded = some fwd)
    (hoh : getHeader req originalHostHeader ≠ "") :
    fwd.host = getHeader req originalHostHeader ∧
    getHeader fwd originalHostHeader = "" := by
  by_cases hprobe : getHeader req probeHeaderName = ""
  · by_cases e1 : getHeader req revisionHeaderName = ""
    · by_cases e2 : getHeader req revisionHeaderNamespace = ""
      · have hfwd : fwd = delHeader { req with
            host := getHeader req originalHostHeader } originalHostHeader := by
          have hfwd0 : fwd =
              (if getHeader req originalHostHeader = "" then req
               else delHeader { req with
                 host := getHeader req originalHostHeader } originalHostHeader) := by
            rcases b with _ | _
            · simpa [handler, hprobe, e1, e2] using hf.symm
            · rcases adm with _ | _ | _ <;>
                simpa [handler, hprobe, e1, e2] using hf.symm
          rwa [if_neg hoh] at hfwd0
        constructor
        · rw [hfwd]; rfl
        · rw [hfwd]
          exact getHeader_delHeader_self _ _
      · simp [handler, hprobe, e1, e2] at hf
    · simp [handler, hprobe, e1] at hf
  · by_cases hq : getHeader req probeHeaderName = queueName
    · rcases prober with _ | bv
      · simp [handler, hprobe, hq, (by decide : queueName ≠ "")] at hf
      · rcases bv <;>
          simp [handler, hprobe, hq, (by decide : queueName ≠ "")] at hf
    · simp [handler, hprobe, hq] at hf

/-- Witness for C7 at concrete inputs: a request carrying the
original-host header is forwarded with that host and without the
header. -/
theorem original_host_restored_witness :
    (⟨"a-better-host.com", []⟩ : Request).host = getHeader
        ⟨"nimporte.pas", [(originalHostHeader, "a-better-host.com")]⟩
        originalHostHeader ∧
    getHeader (⟨"a-better-host.com", []⟩ : Request) originalHostHeader = "" :=
  original_host_restored none (some ()) none (some true)
    AdmissionOutcome.admitted 200 "ok"
    ⟨"nimporte.pas", [(originalHostHeader, "a-better-host.com")]⟩
    ⟨"a-better-host.com", []⟩ (by decide) (by decide)

/-- C8: a request carrying the probe header is answered without touching
the Breaker, the proxy or the event channel — the result equals the one
of a handler built with nil channel, nil breaker and nil proxy, its
trace is empty, nothing is forwarded, and the status is one of the probe
dispatch's statuses. -/
theorem probe_path_isolated (ch b p : Option Unit) (prober : Option Bool)
    (adm : AdmissionOutcome) (st : Nat) (bd : String) (req : Request)
    (h : getHeader req probeHeaderName ≠ "") :
    handler ch b p prober adm st bd req =
      handler none none none prober adm st bd req ∧
    (handler ch b p prober adm st bd req).trace = [] ∧
    (handler ch b p prober adm st bd req).forwarded = none ∧
    ((handler ch b p prober adm st bd req).status = 400 ∨
     (handler ch b p prober adm st bd req).status = 500 ∨
     (handler ch b p prober adm st bd req).status = 200 ∨
     (handler ch b p prober adm st bd req).status = 503) := by
  by_cases hq : getHeader req probeHeaderName = queueName
  · rcases prober with _ | bv
    · refine ⟨?_, ?_, ?_, ?_⟩ <;>
        simp [handler, h, hq, (by decide : queueName ≠ "")]
    · rcases bv <;>
        (refine ⟨?_, ?_, ?_, ?_⟩ <;>
          simp [handler, h, hq, (by decide : queueName ≠ "")])
  · refine ⟨?_, ?_, ?_, ?_⟩ <;> simp [handler, h, hq]

/-- Witness for C8 at concrete inputs: the probe request of the tests
against a handler with nil collaborators. -/
theorem probe_path_isolated_witness :
    (handler (some ()) (some ()) (some ()) (some false)
        AdmissionOutcome.admitted 200 "ok"
        ⟨"h", [(probeHeaderName, queueName)]⟩).trace = [] :=
  (probe_path_isolated (some ()) (some ()) (some ()) (some false)
      AdmissionOutcome.admitted 200 "ok"
      ⟨"h", [(probeHeaderName, queueName)]⟩ (by decide)).2.1

/-- C1: for every breaker configuration with `capacity ≤ maxConcurrency`,
every state reachable by any interleaving of `Maybe` callers has at most
`capacity` (hence at most `maxConcurrency`) concurrently executing
invocations of `work`, and at most `queueDepthFactor × maxConcurrency`
requests parked in the waiting room. -/
theorem breaker_capacity_invariant (p : BreakerParams)
    (hcap : p.capacity ≤ p.maxConcurrency) (s : BreakerState)
    (hr : BreakerReachable p s) :
    s.active ≤ p.capacity ∧ s.active ≤ p.maxConcurrency ∧
    s.pending ≤ p.queueDepthFactor * p.maxConcurrency := by
  induction hr with
  | init => exact ⟨Nat.zero_le _, Nat.zero_le _, Nat.zero_le _⟩
  | step hr hs ih =>
    cases hs with
    | enqueue h => exact ⟨ih.1, ih.2.1, h⟩
    | acquire hp hc =>
        exact ⟨hc, Nat.le_trans hc hcap,
               Nat.le_trans (Nat.sub_le _ _) ih.2.2⟩
    | cancel hp =>
        exact ⟨ih.1, ih.2.1, Nat.le_trans (Nat.sub_le _ _) ih.2.2⟩
    | release ha =>
        exact ⟨Nat.le_trans (Nat.sub_le _ _) ih.1,
               Nat.le_trans (Nat.sub_le _ _) ih.2.1, ih.2.2⟩

/-- Witness for C1: the state after one enqueue and one acquire against
the configuration `{queueDepthFactor := 1, maxConcurrency := 2,
capacity := 2}` satisfies the invariant. -/
theorem breaker_capacity_invariant_witness :
    (⟨0, 1⟩ : BreakerState).active ≤ (⟨1, 2, 2⟩ : BreakerParams).capacity ∧
    (⟨0, 1⟩ : BreakerState).active ≤
      (⟨1, 2, 2⟩ : BreakerParams).maxConcurrency ∧
    (⟨0, 1⟩ : BreakerState).pending ≤
      (⟨1, 2, 2⟩ : BreakerParams).queueDepthFactor *
        (⟨1, 2, 2⟩ : BreakerParams).maxConcurrency :=
  breaker_capacity_invariant ⟨1, 2, 2⟩ (by decide) ⟨0, 1⟩
    (BreakerReachable.step
      (BreakerReachable.step BreakerReachable.init
        (BreakerStep.enqueue (by decide)))
      (BreakerStep.acquire (by decide) (by decide)))

end Serving
